import Mathlib

/-!
Verification of the data-standardization pipeline of the catchquery
repository (`standardize_data.py`, with the alternative ingestion path of
`load_data.py`).  A pandas `DataFrame` is modelled column-major: a list of
columns, each a name paired with a list of cells.  Numeric cells are
rationals (exact arithmetic stands in for float64), missing values are
`Cell.null` (pandas `NaN`/`None`), and text cells are strings.
-/

namespace CatchQuery

/-- One cell of a data frame: missing (`NaN`/`None`), numeric, or text. -/
inductive Cell where
  | null : Cell
  | num : ℚ → Cell
  | str : String → Cell
deriving DecidableEq, Repr

/-- A data frame, column-major: each column is a name with its cell values. -/
abbrev DF := List (String × List Cell)

/-- One row of a data frame, as the list of its cells in column order. -/
abbrev Row := List Cell

/-- Column names of a data frame, in order (pandas `df.columns`). -/
def namesOf (df : DF) : List String := df.map Prod.fst

/-- First column with the given name, if any (pandas label lookup). -/
def getCol? (df : DF) (c : String) : Option (List Cell) :=
  (df.find? (fun p => p.1 == c)).map Prod.snd

/-- Membership test for a column name (pandas `c in df.columns`). -/
def hasCol (df : DF) (c : String) : Bool :=
  (getCol? df c).isSome

/-- Values of the named column, or `[]` when absent. -/
def getColD (df : DF) (c : String) : List Cell :=
  (getCol? df c).getD []

/-- Number of rows: the length of the first column (pandas `len(df)`). -/
def nrows (df : DF) : Nat :=
  ((df.head?).map (fun p => p.2.length)).getD 0

/-- Rows of a rectangular data frame, reading across the columns. -/
def rowsOf (df : DF) : List Row :=
  (List.range (nrows df)).map (fun i => df.map (fun p => p.2.getD i Cell.null))

/-- Replace the named column in place when present, else append it at the
end (pandas column assignment `df[c] = vals`). -/
def setCol (df : DF) (c : String) (vals : List Cell) : DF :=
  if hasCol df c then df.map (fun p => if p.1 == c then (p.1, vals) else p)
  else df ++ [(c, vals)]

/-- Apply a function to every cell of the named column
(pandas `df[c] = df[c].apply(f)` and column-wise arithmetic). -/
def mapColVals (df : DF) (c : String) (f : Cell → Cell) : DF :=
  df.map (fun p => if p.1 == c then (p.1, p.2.map f) else p)

/-- Remove every column with the given name (pandas `df.drop(columns=[c])`). -/
def dropCol (df : DF) (c : String) : DF :=
  df.filter (fun p => !(p.1 == c))

/-! The fixed column-name mapping of `standardize_data.py`
(`COLUMN_MAPPINGS`, lines 16-59). -/

/-- The declarative table mapping historical column spellings to canonical
field names. -/
def COLUMN_MAPPINGS : List (String × String) :=
  [("Month Landed", "month"),
   ("Month", "month"),
   ("Port of Landing", "port"),
   ("Port of landing", "port"),
   ("Port NUTS 2 area", "port_nuts2"),
   ("Port Nationality", "port_nationality"),
   ("Vessel Nationality", "vessel_nationality"),
   ("Vessel nationality", "vessel_nationality"),
   ("Length Group", "length_group"),
   ("Gear category", "gear_category"),
   ("Species", "species_name"),
   ("Species name", "species_name"),
   ("Species code", "species_code"),
   ("Species Group", "species_group"),
   ("Species group", "species_group"),
   ("Live weight (tonnes)", "live_weight_tonnes"),
   ("Sum of Live weight (tonnes)", "live_weight_tonnes"),
   ("Live Weight (tonnes)", "live_weight_tonnes"),
   ("Landed weight (tonnes)", "landed_weight_tonnes"),
   ("Sum of Landed weight (tonnes)", "landed_weight_tonnes"),
   ("Landed Weight (tonnes)", "landed_weight_tonnes"),
   ("Value(£000s)", "value_thousands"),
   ("Sum of Value(£)", "value_pounds"),
   ("Value (£000s)", "value_thousands"),
   ("Year", "year")]

/-- Canonical name of one source column: the mapped name when the spelling
is in the table, otherwise the name itself (pandas `rename` semantics). -/
def canonName (s : String) : String :=
  ((COLUMN_MAPPINGS.find? (fun p => p.1 == s)).map Prod.snd).getD s

/-- The canonical output schema, in output order
(`standard_columns`, lines 140-155). -/
def standard_columns : List String :=
  ["year", "month", "port", "port_nuts2", "port_nationality",
   "vessel_nationality", "length_group", "gear_category", "species_code",
   "species_name", "species_group", "live_weight_tonnes",
   "landed_weight_tonnes", "value_thousands"]

/-! String primitives, defined over the underlying character list so that
concrete instances reduce inside the kernel.  They model the Python string
operations used by the pipeline. -/

/-- Python `s.startswith(t)`. -/
def strStartsWith (s t : String) : Bool :=
  t.data.isPrefixOf s.data

/-- Python `s[n:]`: drop the first `n` characters. -/
def strDrop (s : String) (n : Nat) : String :=
  String.mk (s.data.drop n)

/-- Python `s.strip()`: remove leading and trailing whitespace. -/
def strTrim (s : String) : String :=
  String.mk (((s.data.dropWhile Char.isWhitespace).reverse.dropWhile
    Char.isWhitespace).reverse)

/-! Nationality normalization (`standardize_nationality`, lines 62-79). -/

/-- Python `str()` on a non-null cell (only string cells occur in the
nationality columns; the numeric case renders the number). -/
def pyStr : Cell → String
  | Cell.null => ""
  | Cell.num q => toString q
  | Cell.str s => s

/-- Convert various nationality formats to standard names: null passes
through; otherwise coerce to text, strip surrounding whitespace, remove a
leading "UK - " (five characters), and apply the replacement table. -/
def standardize_nationality (c : Cell) : Cell :=
  match c with
  | Cell.null => Cell.null
  | c =>
    let value := strTrim (pyStr c)
    let value := if strStartsWith value "UK - " then strDrop value 5 else value
    if value = "Faeroe Islands" then Cell.str "Faroe Islands"
    else if value = "FRO" then Cell.str "Faroe Islands"
    else Cell.str value

/-! Claim-side renderings of the spec's description of nationality
normalization, used to compare the code against the spec's words. -/

/-- The spec's prefix-stripping step, as worded: remove a literal leading
"UK - " when present. -/
def specStripUK (s : String) : String :=
  if strStartsWith s "UK - " then strDrop s 5 else s

/-- The spec's fixed alias table, as worded. -/
def specAlias (s : String) : String :=
  if s = "Faeroe Islands" then "Faroe Islands"
  else if s = "FRO" then "Faroe Islands"
  else s

/-- Nationality normalization exactly as the claim words it: nulls pass
through; otherwise strip the literal leading prefix, then apply the alias
table (no whitespace trimming). -/
def specNormalizeNat (c : Cell) : Cell :=
  match c with
  | Cell.null => Cell.null
  | c => Cell.str (specAlias (specStripUK (pyStr c)))

/-- Nationality normalization as amended: nulls pass through; otherwise
coerce to text, trim surrounding whitespace, strip the literal leading
prefix, then apply the alias table. -/
def specNormalizeNatTrimmed (c : Cell) : Cell :=
  match c with
  | Cell.null => Cell.null
  | c => Cell.str (specAlias (specStripUK (strTrim (pyStr c))))

/-! The per-year standardization (`load_and_standardize_year`,
lines 82-168), split into its successive steps. -/

/-- Drop columns whose name starts with "Unnamed" (line 100). -/
def dropUnnamedCols (df : DF) : DF :=
  df.filter (fun p => !(strStartsWith p.1 "Unnamed"))

/-- Drop year-over-year "Change " columns (lines 103-105). -/
def dropChangeCols (df : DF) : DF :=
  df.filter (fun p => !(strStartsWith p.1 "Change "))

/-- Rename every column to its canonical name (line 110). -/
def renameCols (df : DF) : DF :=
  df.map (fun p => (canonName p.1, p.2))

/-- Column canonicalization: drop placeholder and "Change" columns, then
rename (lines 100-110). -/
def canonicalCols (df : DF) : DF :=
  renameCols (dropChangeCols (dropUnnamedCols df))

/-- Add a constant `year` column when none is present (lines 112-114). -/
def stampYear (year : ℤ) (df : DF) : DF :=
  if hasCol df "year" then df
  else df ++ [("year", List.replicate (nrows df) (Cell.num (year : ℚ)))]

/-- Divide a numeric cell by 1000; missing values stay missing
(pandas column division broadcast over `NaN`). -/
def div1000 : Cell → Cell
  | Cell.num q => Cell.num (q / 1000)
  | c => c

/-- Unit correction for 2017-2018: the column labelled in thousands
actually holds pounds, so divide by 1000 (lines 118-121). -/
def fixValueThousands (year : ℤ) (df : DF) : DF :=
  if (year = 2017 ∨ year = 2018) ∧ hasCol df "value_thousands" then
    mapColVals df "value_thousands" div1000
  else df

/-- Unit correction for the "Sum of Value(£)" dialect: the values are
already thousands, so copy the column over and drop the source
(lines 125-128). -/
def fixValuePounds (df : DF) : DF :=
  if hasCol df "value_pounds" then
    dropCol (setCol df "value_thousands" (getColD df "value_pounds")) "value_pounds"
  else df

/-- Normalize the port nationality column when present (lines 133-134). -/
def fixPortNat (df : DF) : DF :=
  if hasCol df "port_nationality" then
    mapColVals df "port_nationality" standardize_nationality
  else df

/-- Normalize the vessel nationality column when present (lines 136-137). -/
def fixVesselNat (df : DF) : DF :=
  if hasCol df "vessel_nationality" then
    mapColVals df "vessel_nationality" standardize_nationality
  else df

/-- Normalize both nationality columns when present (lines 132-137). -/
def fixNationalities (df : DF) : DF :=
  fixVesselNat (fixPortNat df)

/-- Append each still-missing canonical column as all-null
(lines 157-160, the for-loop over `standard_columns`). -/
def addMissing : List String → DF → DF
  | [], df => df
  | c :: cs, df =>
    addMissing cs
      (if hasCol df c then df
       else df ++ [(c, List.replicate (nrows df) Cell.null)])

/-- Add all missing canonical columns as null (lines 157-160). -/
def addMissingCols (df : DF) : DF :=
  addMissing standard_columns df

/-- Select exactly the canonical columns, in canonical order (line 163). -/
def selectStandard (df : DF) : DF :=
  standard_columns.map (fun c => (c, getColD df c))

/-- The frame after canonicalization, year stamping, unit correction and
nationality normalization, before schema completion (lines 100-137). -/
def canonicalizedStage (year : ℤ) (df : DF) : DF :=
  fixNationalities (fixValuePounds (fixValueThousands year (stampYear year (canonicalCols df))))

/-- Standardize the (already parsed) frame of a single year
(`load_and_standardize_year`, lines 82-168, transformation part). -/
def load_and_standardize_year (year : ℤ) (df : DF) : DF :=
  selectStandard (addMissingCols (canonicalizedStage year df))

/-! Cross-year assembly (`standardize_all_years`, lines 171-252). -/

/-- The years the pipeline attempts, `range(2014, 2025)` (line 185). -/
def supportedYears : List ℤ :=
  (List.range 11).map (fun i => 2014 + (i : ℤ))

/-- Standardized table of one year, when that year's file exists. -/
def perYearTable (env : ℤ → Option DF) (y : ℤ) : Option DF :=
  (env y).map (load_and_standardize_year y)

/-- The per-year loop (lines 183-191): a missing file is recorded as a
skipped-year warning and the run continues; a present file contributes its
standardized table. -/
def collectYears (env : ℤ → Option DF) : List ℤ → List ℤ × List DF
  | [] => ([], [])
  | y :: ys =>
    let rest := collectYears env ys
    match env y with
    | none => (y :: rest.1, rest.2)
    | some df => (rest.1, load_and_standardize_year y df :: rest.2)

/-- Deduplicated column names, keeping first appearance order. -/
def firstNames : List String → List String → List String
  | _, [] => []
  | seen, c :: cs =>
    if c ∈ seen then firstNames seen cs
    else c :: firstNames (c :: seen) cs

/-- Values of a column across one frame of a concatenation: the column's
values when present, an all-null block of that frame's height otherwise. -/
def getColFilled (df : DF) (c : String) : List Cell :=
  (getCol? df c).getD (List.replicate (nrows df) Cell.null)

/-- Concatenation of data frames (pandas `concat` with `ignore_index`):
columns in first-appearance order, absent blocks filled with nulls. -/
def concatAll (dfs : List DF) : DF :=
  (firstNames [] (dfs.flatMap namesOf)).map
    (fun c => (c, dfs.flatMap (fun df => getColFilled df c)))

/-- Pandas `concat` raises `ValueError` on an empty list of frames
(line 194 when every year was skipped). -/
def concatDF (dfs : List DF) : Except String DF :=
  match dfs with
  | [] => Except.error "No objects to concatenate"
  | _ => Except.ok (concatAll dfs)

/-- Cross-year standardization (`standardize_all_years`, lines 183-194):
the list of skipped-year warnings together with the combined frame, or the
concatenation error when every year was skipped. -/
def standardize_all_years (env : ℤ → Option DF) : List ℤ × Except String DF :=
  let r := collectYears env supportedYears
  (r.1, concatDF r.2)

/-! The alternative ingestion path (`load_data.py`, `create_database`,
lines 89-113): concatenate, drop exact-duplicate rows, persist. -/

/-- Drop later occurrences of rows already seen
(pandas `drop_duplicates()`, keep="first"). -/
def dropDupRows : List Row → List Row → List Row
  | _, [] => []
  | seen, r :: rs =>
    if r ∈ seen then dropDupRows seen rs
    else r :: dropDupRows (r :: seen) rs

/-- Rows persisted by `create_database` (lines 89-113): nothing on an empty
input list (early return, line 92-94), otherwise the concatenation with
exact-duplicate rows removed (lines 98-103). -/
def create_database (dfs : List DF) : Option (List Row) :=
  match dfs with
  | [] => none
  | _ => some (dropDupRows [] (rowsOf (concatAll dfs)))

/-- Rows of the combined frame produced by `standardize_all_years`, or `[]`
when the run aborted. -/
def combinedRows (env : ℤ → Option DF) : List Row :=
  match (standardize_all_years env).2 with
  | Except.error _ => []
  | Except.ok df => rowsOf df

/-! The persistence step of `standardize_all_years` (lines 207-246) as a
state machine over the destination store.  The store holds the `landings`
table or nothing.  The code first executes `DROP TABLE IF EXISTS landings`
(line 215, committed immediately), then writes the combined frame
(`to_sql`, line 223), then creates indexes.  A failure after `k` steps
leaves the store as the prefix of length `k` dictates. -/

/-- The destination store: the `landings` table, or none when absent. -/
abbrev Store := Option (List Row)

/-- One persistence action of `standardize_all_years` (lines 215-245). -/
inductive PersistStep where
  | dropTable : PersistStep
  | writeTable : PersistStep
  | createIndexes : PersistStep
deriving DecidableEq, Repr

/-- Effect of one persistence action on the store. -/
def runPersistStep (newRows : List Row) : Store → PersistStep → Store
  | _, PersistStep.dropTable => none
  | _, PersistStep.writeTable => some newRows
  | s, PersistStep.createIndexes => s

/-- The persistence actions, in program order (lines 215, 223, 229-243). -/
def persistProgram : List PersistStep :=
  [PersistStep.dropTable, PersistStep.writeTable, PersistStep.createIndexes]

/-- Store contents after the first `k` persistence actions succeed and the
run then stops (modelling a failure at action `k`). -/
def persistAfter (newRows : List Row) (k : Nat) (old : Store) : Store :=
  (persistProgram.take k).foldl (runPersistStep newRows) old

/-! Column-lookup lemmas for the data-frame operations. -/

theorem getCol?_cons (p : String × List Cell) (df : DF) (c : String) :
    getCol? (p :: df) c = if p.1 = c then some p.2 else getCol? df c := by
  by_cases h : p.1 = c <;> simp [getCol?, h]

theorem hasCol_eq_isSome (df : DF) (c : String) :
    hasCol df c = (getCol? df c).isSome := rfl

theorem getCol?_eq_none_of_hasCol_false {df : DF} {c : String}
    (h : hasCol df c = false) : getCol? df c = none := by
  rw [hasCol_eq_isSome] at h
  exact Option.not_isSome_iff_eq_none.mp (by simp [h])

theorem getCol?_append_left {df : DF} (l : DF) {c : String}
    (h : hasCol df c = true) : getCol? (df ++ l) c = getCol? df c := by
  rw [hasCol_eq_isSome] at h
  obtain ⟨v, hv⟩ := Option.isSome_iff_exists.mp h
  simp only [getCol?] at hv ⊢
  rw [List.find?_append]
  cases hf : List.find? (fun p => p.1 == c) df with
  | none => simp [hf] at hv
  | some w => simp [hf]

theorem getCol?_append_right {df : DF} (l : DF) {c : String}
    (h : hasCol df c = false) : getCol? (df ++ l) c = getCol? l c := by
  have hn : getCol? df c = none := getCol?_eq_none_of_hasCol_false h
  simp only [getCol?] at hn ⊢
  rw [List.find?_append]
  cases hf : List.find? (fun p => p.1 == c) df with
  | none => simp
  | some w => simp [hf] at hn

theorem getCol?_append_single_ne (df : DF) {n c : String} (v : List Cell)
    (h : ¬ c = n) : getCol? (df ++ [(n, v)]) c = getCol? df c := by
  have hn : ¬ n = c := fun hh => h hh.symm
  simp only [getCol?, List.find?_append]
  have hs : List.find? (fun p => p.1 == c) [(n, v)] = none := by
    simp [hn]
  rw [hs]
  cases List.find? (fun p => p.1 == c) df <;> simp

theorem getCol?_append_single_self (df : DF) {n : String} (v : List Cell)
    (h : hasCol df n = false) : getCol? (df ++ [(n, v)]) n = some v := by
  rw [getCol?_append_right _ h]
  simp [getCol?]

theorem mapColVals_nil (n : String) (f : Cell → Cell) :
    mapColVals [] n f = [] := rfl

theorem mapColVals_cons (p : String × List Cell) (df : DF) (n : String)
    (f : Cell → Cell) :
    mapColVals (p :: df) n f =
      (if p.1 = n then (p.1, p.2.map f) else p) :: mapColVals df n f := by
  by_cases h : p.1 = n <;> simp [mapColVals, h]

theorem getCol?_mapColVals_ne (df : DF) {n c : String} (f : Cell → Cell)
    (h : ¬ c = n) : getCol? (mapColVals df n f) c = getCol? df c := by
  induction df with
  | nil => rfl
  | cons p df ih =>
    rw [mapColVals_cons]
    by_cases hp : p.1 = n
    · have hpc : ¬ p.1 = c := by rw [hp]; exact fun hh => h hh.symm
      rw [if_pos hp, getCol?_cons, getCol?_cons, if_neg hpc, if_neg hpc]
      exact ih
    · rw [if_neg hp, getCol?_cons, getCol?_cons]
      by_cases hc : p.1 = c
      · rw [if_pos hc, if_pos hc]
      · rw [if_neg hc, if_neg hc]
        exact ih

theorem getCol?_mapColVals_self (df : DF) (n : String) (f : Cell → Cell) :
    getCol? (mapColVals df n f) n = (getCol? df n).map (List.map f) := by
  induction df with
  | nil => rfl
  | cons p df ih =>
    rw [mapColVals_cons]
    by_cases hp : p.1 = n
    · rw [if_pos hp, getCol?_cons, getCol?_cons, if_pos hp]
      simp [hp]
    · rw [if_neg hp, getCol?_cons, getCol?_cons, if_neg hp, if_neg hp]
      exact ih

theorem hasCol_mapColVals (df : DF) (n : String) (f : Cell → Cell) (c : String) :
    hasCol (mapColVals df n f) c = hasCol df c := by
  by_cases h : c = n
  · subst h
    rw [hasCol_eq_isSome, hasCol_eq_isSome, getCol?_mapColVals_self]
    cases getCol? df c <;> simp
  · rw [hasCol_eq_isSome, hasCol_eq_isSome, getCol?_mapColVals_ne df f h]

theorem replaceVals_cons (p : String × List Cell) (df : DF) (n : String)
    (v : List Cell) :
    (p :: df).map (fun q => if q.1 == n then (q.1, v) else q) =
      (if p.1 = n then (p.1, v) else p) ::
        df.map (fun q => if q.1 == n then (q.1, v) else q) := by
  by_cases h : p.1 = n <;> simp [h]

theorem getCol?_replaceVals_self (df : DF) (n : String) (v : List Cell)
    (h : hasCol df n = true) :
    getCol? (df.map (fun q => if q.1 == n then (q.1, v) else q)) n = some v := by
  induction df with
  | nil => simp [hasCol, getCol?] at h
  | cons p df ih =>
    rw [replaceVals_cons]
    by_cases hp : p.1 = n
    · rw [if_pos hp, getCol?_cons, if_pos hp]
    · rw [if_neg hp, getCol?_cons, if_neg hp]
      apply ih
      rw [hasCol_eq_isSome, getCol?_cons, if_neg hp] at h
      exact h

theorem getCol?_replaceVals_ne (df : DF) {n c : String} (v : List Cell)
    (h : ¬ c = n) :
    getCol? (df.map (fun q => if q.1 == n then (q.1, v) else q)) c =
      getCol? df c := by
  induction df with
  | nil => rfl
  | cons p df ih =>
    rw [replaceVals_cons]
    by_cases hp : p.1 = n
    · have hpc : ¬ p.1 = c := by rw [hp]; exact fun hh => h hh.symm
      rw [if_pos hp, getCol?_cons, getCol?_cons, if_neg hpc, if_neg hpc]
      exact ih
    · rw [if_neg hp, getCol?_cons, getCol?_cons]
      by_cases hc : p.1 = c
      · rw [if_pos hc, if_pos hc]
      · rw [if_neg hc, if_neg hc]
        exact ih

theorem getCol?_setCol_self (df : DF) (n : String) (v : List Cell) :
    getCol? (setCol df n v) n = some v := by
  unfold setCol
  split
  · rename_i h
    exact getCol?_replaceVals_self df n v h
  · rename_i h
    exact getCol?_append_single_self df v (by simpa using h)

theorem getCol?_setCol_ne (df : DF) {n c : String} (v : List Cell)
    (h : ¬ c = n) : getCol? (setCol df n v) c = getCol? df c := by
  unfold setCol
  split
  · exact getCol?_replaceVals_ne df v h
  · exact getCol?_append_single_ne df v h

theorem dropCol_cons (p : String × List Cell) (df : DF) (n : String) :
    dropCol (p :: df) n =
      if p.1 = n then dropCol df n else p :: dropCol df n := by
  by_cases h : p.1 = n <;> simp [dropCol, h]

theorem getCol?_dropCol_ne (df : DF) {n c : String} (h : ¬ c = n) :
    getCol? (dropCol df n) c = getCol? df c := by
  induction df with
  | nil => rfl
  | cons p df ih =>
    rw [dropCol_cons]
    by_cases hp : p.1 = n
    · have hpc : ¬ p.1 = c := by rw [hp]; exact fun hh => h hh.symm
      rw [if_pos hp, getCol?_cons, if_neg hpc]
      exact ih
    · rw [if_neg hp, getCol?_cons, getCol?_cons]
      by_cases hc : p.1 = c
      · rw [if_pos hc, if_pos hc]
      · rw [if_neg hc, if_neg hc]
        exact ih

/-! Stability of column lookup across the pipeline stages. -/

theorem stampYear_of_hasCol {y : ℤ} {df : DF}
    (h : hasCol df "year" = true) : stampYear y df = df := by
  simp [stampYear, h]

theorem getCol?_stampYear_self_absent {y : ℤ} {df : DF}
    (h : hasCol df "year" = false) :
    getCol? (stampYear y df) "year" =
      some (List.replicate (nrows df) (Cell.num (y : ℚ))) := by
  rw [stampYear, if_neg (by simp [h])]
  exact getCol?_append_single_self df _ h

theorem getCol?_stampYear_ne {y : ℤ} (df : DF) {c : String}
    (h : ¬ c = "year") : getCol? (stampYear y df) c = getCol? df c := by
  unfold stampYear
  split
  · rfl
  · exact getCol?_append_single_ne df _ h

theorem hasCol_stampYear_ne {y : ℤ} (df : DF) {c : String}
    (h : ¬ c = "year") : hasCol (stampYear y df) c = hasCol df c := by
  rw [hasCol_eq_isSome, hasCol_eq_isSome, getCol?_stampYear_ne df h]

theorem getCol?_fixValueThousands_ne {y : ℤ} (df : DF) {c : String}
    (h : ¬ c = "value_thousands") :
    getCol? (fixValueThousands y df) c = getCol? df c := by
  unfold fixValueThousands
  split
  · exact getCol?_mapColVals_ne df div1000 h
  · rfl

theorem hasCol_fixValueThousands {y : ℤ} (df : DF) (c : String) :
    hasCol (fixValueThousands y df) c = hasCol df c := by
  unfold fixValueThousands
  split
  · exact hasCol_mapColVals df _ div1000 c
  · rfl

theorem fixValueThousands_of_not_flagged {y : ℤ} {df : DF}
    (h : ¬ (y = 2017 ∨ y = 2018)) : fixValueThousands y df = df := by
  unfold fixValueThousands
  rw [if_neg (by simp only [not_and]; exact fun hy => absurd hy h)]

theorem getCol?_fixValuePounds_ne (df : DF) {c : String}
    (h1 : ¬ c = "value_thousands") (h2 : ¬ c = "value_pounds") :
    getCol? (fixValuePounds df) c = getCol? df c := by
  unfold fixValuePounds
  split
  · rw [getCol?_dropCol_ne _ h2, getCol?_setCol_ne _ _ h1]
  · rfl

theorem fixValuePounds_of_absent {df : DF}
    (h : hasCol df "value_pounds" = false) : fixValuePounds df = df := by
  simp [fixValuePounds, h]

theorem getCol?_fixValuePounds_self {df : DF}
    (h : hasCol df "value_pounds" = true) :
    getCol? (fixValuePounds df) "value_thousands" =
      getCol? df "value_pounds" := by
  rw [fixValuePounds, if_pos (by simp [h])]
  rw [getCol?_dropCol_ne _ (by decide), getCol?_setCol_self]
  obtain ⟨v, hv⟩ := Option.isSome_iff_exists.mp (hasCol_eq_isSome df "value_pounds" ▸ h)
  simp [getColD, hv]

theorem getCol?_fixPortNat_ne (df : DF) {c : String}
    (h : ¬ c = "port_nationality") :
    getCol? (fixPortNat df) c = getCol? df c := by
  unfold fixPortNat
  split
  · exact getCol?_mapColVals_ne _ _ h
  · rfl

theorem getCol?_fixVesselNat_ne (df : DF) {c : String}
    (h : ¬ c = "vessel_nationality") :
    getCol? (fixVesselNat df) c = getCol? df c := by
  unfold fixVesselNat
  split
  · exact getCol?_mapColVals_ne _ _ h
  · rfl

theorem getCol?_fixNationalities_ne (df : DF) {c : String}
    (h1 : ¬ c = "port_nationality") (h2 : ¬ c = "vessel_nationality") :
    getCol? (fixNationalities df) c = getCol? df c := by
  unfold fixNationalities
  rw [getCol?_fixVesselNat_ne _ h2, getCol?_fixPortNat_ne _ h1]

theorem hasCol_stampYear (y : ℤ) (df : DF) :
    hasCol (stampYear y df) "year" = true := by
  by_cases h : hasCol df "year" = true
  · rw [stampYear_of_hasCol h]
    exact h
  · have hf : hasCol df "year" = false := by
      cases hh : hasCol df "year"
      · rfl
      · exact absurd hh h
    rw [hasCol_eq_isSome, getCol?_stampYear_self_absent hf]
    rfl

theorem getCol?_canonicalizedStage_year (y : ℤ) (df : DF) :
    getCol? (canonicalizedStage y df) "year" =
      getCol? (stampYear y (canonicalCols df)) "year" := by
  unfold canonicalizedStage
  rw [getCol?_fixNationalities_ne _ (by decide) (by decide),
    getCol?_fixValuePounds_ne _ (by decide) (by decide),
    getCol?_fixValueThousands_ne _ (by decide)]

theorem hasCol_canonicalizedStage_year (y : ℤ) (df : DF) :
    hasCol (canonicalizedStage y df) "year" = true := by
  rw [hasCol_eq_isSome, getCol?_canonicalizedStage_year, ← hasCol_eq_isSome]
  exact hasCol_stampYear y _

/-! Lemmas about schema completion and selection. -/

theorem hasCol_append_single_ne (df : DF) {n c : String} (v : List Cell)
    (h : ¬ c = n) : hasCol (df ++ [(n, v)]) c = hasCol df c := by
  rw [hasCol_eq_isSome, hasCol_eq_isSome, getCol?_append_single_ne df v h]

theorem getCol?_addMissing_of_hasCol {cs : List String} {df : DF} {c : String}
    (h : hasCol df c = true) :
    getCol? (addMissing cs df) c = getCol? df c := by
  induction cs generalizing df with
  | nil => rfl
  | cons c' cs ih =>
    simp only [addMissing]
    by_cases hc' : hasCol df c' = true
    · rw [if_pos hc']
      exact ih h
    · rw [if_neg hc']
      by_cases hcc : c = c'
      · subst hcc
        exact absurd h hc'
      · rw [ih (by rw [hasCol_append_single_ne df _ hcc]; exact h)]
        exact getCol?_append_single_ne df _ hcc

theorem getCol?_addMissing_absent {cs : List String} {df : DF} {c : String}
    (hmem : c ∈ cs) (habs : hasCol df c = false) :
    ∃ k, getCol? (addMissing cs df) c = some (List.replicate k Cell.null) := by
  induction cs generalizing df with
  | nil => cases hmem
  | cons c' cs ih =>
    simp only [addMissing]
    by_cases hc : c' = c
    · subst hc
      rw [if_neg (by rw [habs]; exact Bool.false_ne_true)]
      refine ⟨nrows df, ?_⟩
      have happ : getCol? (df ++ [(c', List.replicate (nrows df) Cell.null)]) c' =
          some (List.replicate (nrows df) Cell.null) :=
        getCol?_append_single_self df _ habs
      rw [getCol?_addMissing_of_hasCol (by rw [hasCol_eq_isSome, happ]; rfl)]
      exact happ
    · have hmem' : c ∈ cs := by
        cases hmem with
        | head => exact absurd rfl hc
        | tail _ hm => exact hm
      by_cases hc' : hasCol df c' = true
      · rw [if_pos hc']
        exact ih hmem' habs
      · rw [if_neg hc']
        exact ih hmem'
          (by rw [hasCol_append_single_ne df _ (fun hh => hc hh.symm)]; exact habs)

theorem getCol?_mapNames {ns : List String} (g : String → List Cell)
    {c : String} (h : c ∈ ns) :
    getCol? (ns.map (fun n => (n, g n))) c = some (g c) := by
  induction ns with
  | nil => cases h
  | cons n ns ih =>
    rw [List.map_cons, getCol?_cons]
    by_cases hn : n = c
    · subst hn
      rw [if_pos rfl]
    · rw [if_neg hn]
      cases h with
      | head => exact absurd rfl hn
      | tail _ hm => exact ih hm

theorem namesOf_mapNames (ns : List String) (g : String → List Cell) :
    namesOf (ns.map (fun n => (n, g n))) = ns := by
  induction ns with
  | nil => rfl
  | cons n ns ih =>
    simp only [namesOf, List.map_cons] at *
    rw [ih]

theorem getColD_selectStandard (df : DF) {c : String}
    (h : c ∈ standard_columns) :
    getColD (selectStandard df) c = getColD df c := by
  unfold selectStandard getColD
  rw [getCol?_mapNames _ h]
  rfl

theorem namesOf_selectStandard (df : DF) :
    namesOf (selectStandard df) = standard_columns :=
  namesOf_mapNames standard_columns _

theorem getColD_load_year (y : ℤ) (df : DF) {c : String}
    (h : c ∈ standard_columns) :
    getColD (load_and_standardize_year y df) c =
      getColD (addMissingCols (canonicalizedStage y df)) c :=
  getColD_selectStandard _ h

/-! Lemmas about nationality normalization. -/

theorem snat_spec (c : Cell) :
    standardize_nationality c = specNormalizeNatTrimmed c := by
  cases c with
  | null => rfl
  | num q =>
    show (let value := strTrim (pyStr (Cell.num q))
      let value := if strStartsWith value "UK - " then strDrop value 5 else value
      if value = "Faeroe Islands" then Cell.str "Faroe Islands"
      else if value = "FRO" then Cell.str "Faroe Islands"
      else Cell.str value) =
      Cell.str (specAlias (specStripUK (strTrim (pyStr (Cell.num q)))))
    unfold specAlias specStripUK
    by_cases h1 : strStartsWith (strTrim (pyStr (Cell.num q))) "UK - " <;>
      simp only [h1, if_true, if_false, Bool.false_eq_true, if_neg, ite_false,
        ite_true] <;> split_ifs <;> rfl
  | str s =>
    show (let value := strTrim (pyStr (Cell.str s))
      let value := if strStartsWith value "UK - " then strDrop value 5 else value
      if value = "Faeroe Islands" then Cell.str "Faroe Islands"
      else if value = "FRO" then Cell.str "Faroe Islands"
      else Cell.str value) =
      Cell.str (specAlias (specStripUK (strTrim (pyStr (Cell.str s)))))
    unfold specAlias specStripUK
    by_cases h1 : strStartsWith (strTrim (pyStr (Cell.str s))) "UK - " <;>
      simp only [h1, if_true, if_false, Bool.false_eq_true, if_neg, ite_false,
        ite_true] <;> split_ifs <;> rfl

theorem specAlias_idem (s : String) : specAlias (specAlias s) = specAlias s := by
  by_cases h1 : s = "Faeroe Islands"
  · subst h1
    simp [specAlias]
  · by_cases h2 : s = "FRO"
    · subst h2
      simp [specAlias]
    · simp [specAlias, h1, h2]

theorem snat_fixpoint (x : String)
    (htrim : strTrim (specAlias x) = specAlias x)
    (hpre : strStartsWith (specAlias x) "UK - " = false) :
    standardize_nationality (Cell.str (specAlias x)) = Cell.str (specAlias x) := by
  rw [snat_spec]
  show Cell.str (specAlias (specStripUK (strTrim (specAlias x)))) = _
  rw [htrim]
  unfold specStripUK
  rw [if_neg (by rw [hpre]; exact Bool.false_ne_true)]
  exact congrArg Cell.str (specAlias_idem x)

/-! Lemmas about cross-year assembly. -/

theorem collectYears_eq (env : ℤ → Option DF) (ys : List ℤ) :
    collectYears env ys =
      (ys.filter (fun y => (env y).isNone), ys.filterMap (perYearTable env)) := by
  induction ys with
  | nil => rfl
  | cons y ys ih =>
    simp only [collectYears, ih, List.filter_cons, List.filterMap_cons]
    cases he : env y <;> simp [perYearTable, he]

theorem filterMap_ext {α β : Type} (l : List α) (f g : α → Option β)
    (h : ∀ a ∈ l, f a = g a) : l.filterMap f = l.filterMap g := by
  induction l with
  | nil => rfl
  | cons a l ih =>
    simp only [List.filterMap_cons, h a (List.mem_cons_self a l)]
    rw [ih (fun b hb => h b (List.mem_cons_of_mem a hb))]

theorem filterMap_none {α β : Type} (l : List α) :
    l.filterMap (fun _ => (none : Option β)) = [] := by
  induction l with
  | nil => rfl
  | cons a l ih => simp [List.filterMap_cons, ih]

/-! Lemmas about exact-duplicate elimination. -/

theorem dropDupRows_nodup (l : List Row) :
    ∀ seen : List Row,
      (dropDupRows seen l).Nodup ∧ ∀ r ∈ dropDupRows seen l, r ∉ seen := by
  induction l with
  | nil =>
    intro seen
    exact ⟨List.nodup_nil, by simp [dropDupRows]⟩
  | cons r rs ih =>
    intro seen
    simp only [dropDupRows]
    by_cases hm : r ∈ seen
    · rw [if_pos hm]
      exact ih seen
    · rw [if_neg hm]
      obtain ⟨hnd, hnotin⟩ := ih (r :: seen)
      refine ⟨List.nodup_cons.mpr ⟨?_, hnd⟩, ?_⟩
      · intro hmem
        exact hnotin r hmem (List.mem_cons_self r seen)
      · intro x hx
        cases hx with
        | head => exact hm
        | tail _ hx' =>
          intro hxs
          exact hnotin x hx' (List.mem_cons_of_mem r hxs)

/-! Claim C4: nationality normalization behaviour per value. -/

/-- C4 counterexample: as literally stated — prefix-strip then alias, with
nothing else — the claim disagrees with the code on a value carrying
surrounding whitespace, because the code trims first. -/
theorem C4_counterexample :
    standardize_nationality (Cell.str " Faeroe Islands") ≠
      specNormalizeNat (Cell.str " Faeroe Islands") := by
  decide

/-- C4 (amended): for every non-null value, normalization coerces to text,
trims surrounding whitespace, then strips a literal leading "UK - " prefix
if present, then applies the fixed alias table; null passes through
unchanged.  In particular "UK - Scotland" becomes "Scotland", and
"Faeroe Islands" and "FRO" become "Faroe Islands". -/
theorem C4_nationality_normalization :
    (∀ c : Cell, standardize_nationality c = specNormalizeNatTrimmed c) ∧
    standardize_nationality (Cell.str "UK - Scotland") = Cell.str "Scotland" ∧
    standardize_nationality (Cell.str "Faeroe Islands") =
      Cell.str "Faroe Islands" ∧
    standardize_nationality (Cell.str "FRO") = Cell.str "Faroe Islands" ∧
    standardize_nationality Cell.null = Cell.null :=
  ⟨snat_spec, by decide, by decide, by decide, rfl⟩

/-! Claim C5: idempotence of nationality normalization. -/

/-- C5 counterexample: normalization is not idempotent — a value with a
doubled prefix loses one "UK - " per application, so applying it twice
differs from applying it once. -/
theorem C5_counterexample :
    standardize_nationality
        (standardize_nationality (Cell.str "UK - UK - Scotland")) ≠
      standardize_nationality (Cell.str "UK - UK - Scotland") := by
  decide

/-- C5 (amended): applying nationality normalization twice agrees with
applying it once on every cell whose once-normalized form carries no
surrounding whitespace and does not itself begin with "UK - " (every cell
a single pass fully normalizes, which excludes doubled prefixes and
whitespace reintroduced by prefix stripping). -/
theorem C5_idempotent_amended (c : Cell)
    (h : ∀ s, standardize_nationality c = Cell.str s →
      strTrim s = s ∧ strStartsWith s "UK - " = false) :
    standardize_nationality (standardize_nationality c) =
      standardize_nationality c := by
  cases c with
  | null => rfl
  | num q =>
    have hc : standardize_nationality (Cell.num q) =
        Cell.str (specAlias (specStripUK (strTrim (pyStr (Cell.num q))))) :=
      snat_spec _
    obtain ⟨htrim, hpre⟩ := h _ hc
    rw [hc]
    exact snat_fixpoint _ htrim hpre
  | str s =>
    have hc : standardize_nationality (Cell.str s) =
        Cell.str (specAlias (specStripUK (strTrim (pyStr (Cell.str s))))) :=
      snat_spec _
    obtain ⟨htrim, hpre⟩ := h _ hc
    rw [hc]
    exact snat_fixpoint _ htrim hpre

/-- C5 witness: the amended idempotence applied at "UK - Scotland". -/
theorem C5_idempotent_witness :
    standardize_nationality (standardize_nationality (Cell.str "UK - Scotland")) =
      standardize_nationality (Cell.str "UK - Scotland") := by
  apply C5_idempotent_amended
  intro s hs
  have hv : standardize_nationality (Cell.str "UK - Scotland") =
      Cell.str "Scotland" := by decide
  rw [hv] at hs
  injection hs with hs'
  subst hs'
  exact ⟨by decide, by decide⟩

/-! Claim C6: atomicity of the persistence step. -/

/-- C6: the persistence step of `standardize_all_years` is not atomic.
The code drops the existing `landings` table (line 215) before the new
write (line 223); if the run fails right after the drop, the store holds
neither the old dataset nor the new one, contradicting the required
old-or-new guarantee.  The last conjunct checks the model: a run that
completes all steps leaves exactly the new dataset. -/
theorem C6_persist_not_atomic :
    persistAfter [[Cell.num 2]] 1 (some [[Cell.num 1]]) = none ∧
    (none : Store) ≠ some [[Cell.num 1]] ∧
    (none : Store) ≠ some [[Cell.num 2]] ∧
    persistAfter [[Cell.num 2]] 3 (some [[Cell.num 1]]) = some [[Cell.num 2]] :=
  ⟨rfl, by decide, by decide, rfl⟩

/-! Claim C3: exact-duplicate elimination. -/

set_option maxRecDepth 40000 in
/-- C3 counterexample: the `standardize_data.py` pipeline concatenates the
per-year tables with no duplicate elimination, so a year file holding two
identical records yields two identical rows in the aggregated dataset. -/
theorem C3_counterexample :
    ¬ (combinedRows (fun y => if y = 2014 then
        some [("Port of landing", [Cell.str "Hull", Cell.str "Hull"])]
      else none)).Nodup := by
  have h : combinedRows (fun y => if y = 2014 then
      some [("Port of landing", [Cell.str "Hull", Cell.str "Hull"])]
    else none) =
      [[Cell.num 2014, Cell.null, Cell.str "Hull", Cell.null, Cell.null,
        Cell.null, Cell.null, Cell.null, Cell.null, Cell.null, Cell.null,
        Cell.null, Cell.null, Cell.null],
       [Cell.num 2014, Cell.null, Cell.str "Hull", Cell.null, Cell.null,
        Cell.null, Cell.null, Cell.null, Cell.null, Cell.null, Cell.null,
        Cell.null, Cell.null, Cell.null]] := by decide
  rw [h]
  intro hnd
  exact (List.nodup_cons.mp hnd).1 (List.mem_singleton.mpr rfl)

/-- C3 (amended): exact-duplicate rows are eliminated only in the
`load_data.py` ingestion path — whenever `create_database` persists a row
set, that row set contains no two identical rows; the
`standardize_data.py` aggregation (`standardize_all_years`) performs no
deduplication and can persist exact duplicates. -/
theorem C3_dedup_amended (dfs : List DF) (rows : List Row)
    (h : create_database dfs = some rows) : rows.Nodup := by
  cases dfs with
  | nil => cases h
  | cons d ds =>
    have h2 : some (dropDupRows [] (rowsOf (concatAll (d :: ds)))) = some rows := h
    injection h2 with h3
    rw [← h3]
    exact (dropDupRows_nodup _ []).1

/-- C3 witness: the dedup theorem applied to a one-frame input holding a
duplicated row. -/
theorem C3_dedup_witness :
    (dropDupRows [] (rowsOf (concatAll
      [[("port", [Cell.str "A", Cell.str "A"])]]))).Nodup :=
  C3_dedup_amended [[("port", [Cell.str "A", Cell.str "A"])]] _ rfl

/-! Claim C9: the all-years-missing run aborts. -/

/-- C9: when every supported year's file is absent, every year is skipped
and the final concatenation of the empty table list raises, so the run
aborts instead of producing (and persisting) an empty dataset. -/
theorem C9_all_years_missing (env : ℤ → Option DF)
    (h : ∀ y ∈ supportedYears, env y = none) :
    (standardize_all_years env).2 = Except.error "No objects to concatenate" := by
  show concatDF (collectYears env supportedYears).2 = _
  rw [collectYears_eq]
  have hnil : supportedYears.filterMap (perYearTable env) = [] := by
    rw [filterMap_ext supportedYears (perYearTable env) (fun _ => none)
      (fun y hy => by simp [perYearTable, h y hy])]
    exact filterMap_none supportedYears
  rw [hnil]
  rfl

/-- C9 witness: the abort theorem applied to the empty environment. -/
theorem C9_witness :
    (standardize_all_years (fun _ => (none : Option DF))).2 =
      Except.error "No objects to concatenate" :=
  C9_all_years_missing _ (fun _ _ => rfl)

/-! Claim C10: the supported year range. -/

/-- C10: the pipeline attempts exactly the years 2014 through 2024
inclusive — eleven years — and `standardize_all_years` reads and emits
per-year tables for precisely the present years of that range. -/
theorem C10_supported_years :
    supportedYears =
      [2014, 2015, 2016, 2017, 2018, 2019, 2020, 2021, 2022, 2023, 2024] ∧
    supportedYears.length = 11 ∧
    (∀ y : ℤ, y ∈ supportedYears ↔ 2014 ≤ y ∧ y ≤ 2024) ∧
    (∀ env : ℤ → Option DF,
      standardize_all_years env =
        (supportedYears.filter (fun y => (env y).isNone),
         concatDF (supportedYears.filterMap (perYearTable env)))) := by
  have h1 : supportedYears =
      [2014, 2015, 2016, 2017, 2018, 2019, 2020, 2021, 2022, 2023, 2024] := rfl
  refine ⟨h1, rfl, ?_, ?_⟩
  · intro y
    rw [h1]
    simp only [List.mem_cons, List.not_mem_nil, or_false]
    omega
  · intro env
    show ((collectYears env supportedYears).1,
      concatDF (collectYears env supportedYears).2) = _
    rw [collectYears_eq]

/-! Claim C7: missing-year resilience. -/

/-- C7: removing one year's file makes the loop skip that year with a
recorded warning; the other years' standardized tables are unchanged, and
the collected table list equals the original one with that year's table
absent. -/
theorem C7_missing_year_resilience (env env' : ℤ → Option DF) (y0 : ℤ)
    (h0 : env' y0 = none) (he : ∀ y, y ≠ y0 → env' y = env y)
    (hy : y0 ∈ supportedYears) :
    y0 ∈ (standardize_all_years env').1 ∧
    (∀ y ∈ supportedYears, y ≠ y0 → perYearTable env' y = perYearTable env y) ∧
    (collectYears env' supportedYears).2 =
      supportedYears.filterMap
        (fun y => if y = y0 then none else perYearTable env y) := by
  refine ⟨?_, ?_, ?_⟩
  · show y0 ∈ (collectYears env' supportedYears).1
    rw [collectYears_eq]
    exact List.mem_filter.mpr ⟨hy, by simp [h0]⟩
  · intro y _ hne
    simp [perYearTable, he y hne]
  · rw [collectYears_eq]
    apply filterMap_ext
    intro y _
    by_cases hc : y = y0
    · subst hc
      simp [perYearTable, h0]
    · rw [if_neg hc]
      simp [perYearTable, he y hc]

/-- C7 witness: resilience applied with 2014's file removed from a
one-year environment. -/
theorem C7_witness :
    (2014 : ℤ) ∈ (standardize_all_years (fun _ => (none : Option DF))).1 :=
  (C7_missing_year_resilience
    (fun y => if y = 2014 then some [("Month", [Cell.num 1])] else none)
    (fun _ => none) 2014 rfl (fun y hy => by simp [hy]) (by decide)).1

/-! Bridging lemmas for schema completion stated on `addMissingCols`. -/

theorem getCol?_addMissingCols_of_hasCol {df : DF} {c : String}
    (h : hasCol df c = true) :
    getCol? (addMissingCols df) c = getCol? df c :=
  getCol?_addMissing_of_hasCol h

theorem getCol?_addMissingCols_absent {df : DF} {c : String}
    (hmem : c ∈ standard_columns) (habs : hasCol df c = false) :
    ∃ k, getCol? (addMissingCols df) c = some (List.replicate k Cell.null) :=
  getCol?_addMissing_absent hmem habs

theorem length_selectStandard (df : DF) : (selectStandard df).length = 14 := by
  rw [selectStandard, List.length_map]
  rfl

/-! Claim C2: schema completeness. -/

/-- C2: every output row of `load_and_standardize_year` has exactly the 14
canonical fields in canonical order (so no extra and no missing column),
and every canonical field still absent after canonicalization and unit or
nationality correction is emitted with null values.  The no-duplicate-names
hypothesis excludes the column-mapping collision the spec flags as
undefined behaviour. -/
theorem C2_schema_completeness (y : ℤ) (df : DF)
    (_hnodup : (namesOf (canonicalizedStage y df)).Nodup) :
    namesOf (load_and_standardize_year y df) = standard_columns ∧
    (∀ r ∈ rowsOf (load_and_standardize_year y df), r.length = 14) ∧
    (∀ c ∈ standard_columns, hasCol (canonicalizedStage y df) c = false →
      ∀ x ∈ getColD (load_and_standardize_year y df) c, x = Cell.null) := by
  refine ⟨namesOf_selectStandard _, ?_, ?_⟩
  · intro r hr
    unfold rowsOf at hr
    obtain ⟨i, _, hi⟩ := List.mem_map.mp hr
    rw [← hi, List.length_map]
    exact length_selectStandard _
  · intro c hc habs x hx
    rw [getColD_load_year y df hc] at hx
    obtain ⟨k, hk⟩ := getCol?_addMissingCols_absent hc habs
    rw [getColD, hk] at hx
    exact List.eq_of_mem_replicate hx

/-- C2 witness: schema completeness at a 2014-dialect frame that carries
only a port column. -/
theorem C2_witness :
    namesOf (load_and_standardize_year 2014
      [("Port of landing", [Cell.str "Hull"])]) = standard_columns := by
  have hn : namesOf (canonicalizedStage 2014
      [("Port of landing", [Cell.str "Hull"])]) = ["port", "year"] := by decide
  exact (C2_schema_completeness 2014 _ (by rw [hn]; simp)).1

/-! Claim C8: year stamping. -/

/-- C8: when no `year` column survives canonicalization, every output row
carries the externally supplied year; when a `year` column is present, its
values are emitted exactly as they came in, with no cross-check against
the supplied identifier. -/
theorem C8_year_stamping (y : ℤ) (df : DF)
    (_hnodup : (namesOf (canonicalizedStage y df)).Nodup) :
    (hasCol (canonicalCols df) "year" = false →
      ∀ x ∈ getColD (load_and_standardize_year y df) "year",
        x = Cell.num (y : ℚ)) ∧
    (hasCol (canonicalCols df) "year" = true →
      getColD (load_and_standardize_year y df) "year" =
        getColD (canonicalCols df) "year") := by
  have hbase : getColD (load_and_standardize_year y df) "year" =
      (getCol? (stampYear y (canonicalCols df)) "year").getD [] := by
    rw [getColD_load_year y df (by decide), getColD,
      getCol?_addMissingCols_of_hasCol (hasCol_canonicalizedStage_year y df),
      getCol?_canonicalizedStage_year]
  constructor
  · intro habs x hx
    rw [hbase, getCol?_stampYear_self_absent habs] at hx
    exact List.eq_of_mem_replicate hx
  · intro hpres
    rw [hbase, stampYear_of_hasCol hpres]
    rfl

/-- C8 witness: a frame whose source carries a `Year` column keeps its own
values (2020) even when loaded as year 2024. -/
theorem C8_witness :
    getColD (load_and_standardize_year 2024 [("Year", [Cell.num 2020])])
        "year" =
      getColD (canonicalCols [("Year", [Cell.num 2020])]) "year" := by
  have hn : namesOf (canonicalizedStage 2024 [("Year", [Cell.num 2020])]) =
      ["year"] := by decide
  exact (C8_year_stamping 2024 _ (by rw [hn]; simp)).2 (by decide)

/-! Claim C1: value-unit correction. -/

/-- C1: unit correction keyed by year.  For 2017 and 2018, when the
canonical value column (and not the whole-units column) is present, every
output value is the raw value divided by 1000; whenever the distinctly
named whole-units column is present, the output values are exactly its raw
values, with no arithmetic; for unflagged years with only the canonical
value column, the values pass through unchanged.  The no-duplicate-names
hypothesis excludes the column-mapping collision the spec flags as
undefined behaviour. -/
theorem C1_value_unit_correction (y : ℤ) (df : DF)
    (_hnodup : (namesOf (canonicalCols df)).Nodup) :
    ((y = 2017 ∨ y = 2018) →
      hasCol (canonicalCols df) "value_thousands" = true →
      hasCol (canonicalCols df) "value_pounds" = false →
      getColD (load_and_standardize_year y df) "value_thousands" =
        (getColD (canonicalCols df) "value_thousands").map div1000) ∧
    (hasCol (canonicalCols df) "value_pounds" = true →
      getColD (load_and_standardize_year y df) "value_thousands" =
        getColD (canonicalCols df) "value_pounds") ∧
    (¬ (y = 2017 ∨ y = 2018) →
      hasCol (canonicalCols df) "value_thousands" = true →
      hasCol (canonicalCols df) "value_pounds" = false →
      getColD (load_and_standardize_year y df) "value_thousands" =
        getColD (canonicalCols df) "value_thousands") := by
  refine ⟨?_, ?_, ?_⟩
  · intro hy hvt hvp
    have hvtS : hasCol (stampYear y (canonicalCols df)) "value_thousands" = true := by
      rw [hasCol_stampYear_ne _ (by decide)]
      exact hvt
    have hvpT : hasCol (fixValueThousands y (stampYear y (canonicalCols df)))
        "value_pounds" = false := by
      rw [hasCol_fixValueThousands, hasCol_stampYear_ne _ (by decide)]
      exact hvp
    have hstage : getCol? (canonicalizedStage y df) "value_thousands" =
        (getCol? (canonicalCols df) "value_thousands").map (List.map div1000) := by
      unfold canonicalizedStage fixNationalities
      rw [getCol?_fixVesselNat_ne _ (by decide),
        getCol?_fixPortNat_ne _ (by decide),
        fixValuePounds_of_absent hvpT]
      unfold fixValueThousands
      rw [if_pos ⟨hy, hvtS⟩, getCol?_mapColVals_self,
        getCol?_stampYear_ne _ (by decide)]
    obtain ⟨v, hv⟩ := Option.isSome_iff_exists.mp
      ((hasCol_eq_isSome (canonicalCols df) "value_thousands") ▸ hvt)
    have hstageS : hasCol (canonicalizedStage y df) "value_thousands" = true := by
      rw [hasCol_eq_isSome, hstage, hv]
      rfl
    rw [getColD_load_year y df (by decide), getColD,
      getCol?_addMissingCols_of_hasCol hstageS, hstage, hv, getColD, hv]
    rfl
  · intro hvp
    have hvpS : hasCol (fixValueThousands y (stampYear y (canonicalCols df)))
        "value_pounds" = true := by
      rw [hasCol_fixValueThousands, hasCol_stampYear_ne _ (by decide)]
      exact hvp
    have hstage : getCol? (canonicalizedStage y df) "value_thousands" =
        getCol? (canonicalCols df) "value_pounds" := by
      unfold canonicalizedStage fixNationalities
      rw [getCol?_fixVesselNat_ne _ (by decide),
        getCol?_fixPortNat_ne _ (by decide),
        getCol?_fixValuePounds_self hvpS,
        getCol?_fixValueThousands_ne _ (by decide),
        getCol?_stampYear_ne _ (by decide)]
    have hstageS : hasCol (canonicalizedStage y df) "value_thousands" = true := by
      rw [hasCol_eq_isSome, hstage, ← hasCol_eq_isSome]
      exact hvp
    rw [getColD_load_year y df (by decide), getColD,
      getCol?_addMissingCols_of_hasCol hstageS, hstage, getColD]
  · intro hy hvt hvp
    have hvpS : hasCol (stampYear y (canonicalCols df)) "value_pounds" = false := by
      rw [hasCol_stampYear_ne _ (by decide)]
      exact hvp
    have hstage : getCol? (canonicalizedStage y df) "value_thousands" =
        getCol? (canonicalCols df) "value_thousands" := by
      unfold canonicalizedStage fixNationalities
      rw [getCol?_fixVesselNat_ne _ (by decide),
        getCol?_fixPortNat_ne _ (by decide),
        fixValueThousands_of_not_flagged hy,
        fixValuePounds_of_absent hvpS,
        getCol?_stampYear_ne _ (by decide)]
    have hstageS : hasCol (canonicalizedStage y df) "value_thousands" = true := by
      rw [hasCol_eq_isSome, hstage, ← hasCol_eq_isSome]
      exact hvt
    rw [getColD_load_year y df (by decide), getColD,
      getCol?_addMissingCols_of_hasCol hstageS, hstage, getColD]

/-- C1 witness: the 2017 correction applied to a frame carrying the
mislabelled thousands column. -/
theorem C1_witness :
    getColD (load_and_standardize_year 2017
        [("Value(£000s)", [Cell.num 50000])]) "value_thousands" =
      (getColD (canonicalCols [("Value(£000s)", [Cell.num 50000])])
        "value_thousands").map div1000 := by
  have hn : namesOf (canonicalCols [("Value(£000s)", [Cell.num 50000])]) =
      ["value_thousands"] := by decide
  exact (C1_value_unit_correction 2017 _ (by rw [hn]; simp)).1 (Or.inl rfl)
    (by decide) (by decide)

end CatchQuery
